import Mathlib

/-!
# crudmonkey: the generic CRUD screen generator (package crudui)

A shallow embedding of `crudui/crudui.go` together with the parts of the Go
runtime (package reflect), of the store (pop) and of the widget toolkit (tview)
that the package drives, followed by theorems about its behaviour.

Conventions of the embedding:

* Go strings are sequences of runes (Lean `String`).
* The `model` argument of the package's functions is a pointer to a struct
  value, as at every call site in `tui/tui.go`; it is represented by the
  struct type it points to, with its fields listed in declaration order
  and no embedded structs.
* Closures handed to the toolkit are represented by the data they capture
  (`Callback`) and are run by `runCallback`.
* A Go panic ends an action with `Outcome.panicked`, carrying the state of the
  world at the moment of the panic.
-/

set_option autoImplicit false

namespace Crudmonkey

/-! ## Go runtime: types, struct tags, values -/

/-- Kinds of Go types, as enumerated by `reflect.Kind`. -/
inductive Kind
  | Invalid | Bool | Int | Int8 | Int16 | Int32 | Int64
  | Uint | Uint8 | Uint16 | Uint32 | Uint64 | Uintptr
  | Float32 | Float64 | Complex64 | Complex128
  | Array | Chan | Func | Interface | Map | Pointer | Slice
  | String | Struct | UnsafePointer
  deriving DecidableEq, Repr

/-- What this development needs to know of a `reflect.Type`: its name, its kind and
whether values of the type print through a method (`String()` or `Error()`). -/
structure GoType where
  Name : String
  Kind : Kind
  Stringer : Bool
  deriving DecidableEq, Repr

/-- A struct tag, represented by its key/value pairs in the order written. -/
structure StructTag where
  pairs : List (String × String)
  deriving DecidableEq, Repr

/-- `StructTag.Get`: the value of the first pair with the key, the empty string when
there is none. -/
def StructTag.Get (tag : StructTag) (key : String) : String :=
  match tag.pairs.find? (fun p => p.1 = key) with
  | some p => p.2
  | none => ""

/-- A declared field of a struct type (`reflect.StructField`). -/
structure StructField where
  Name : String
  Typ : GoType
  Tag : StructTag
  deriving DecidableEq, Repr

/-- A struct type: its name and its fields in declaration order. -/
structure StructType where
  Name : String
  Fields : List StructField
  deriving DecidableEq, Repr

/-! ## crudui: field descriptors -/

/-- FieldDescriptor holds info about a struct field for form generation. -/
structure FieldDescriptor where
  Name : String
  DBName : String
  Typ : GoType
  deriving DecidableEq, Repr

/-- The loop of `describeModel` over the fields not yet visited, `fields` being the
slice built so far. -/
def describeModel.loop : List StructField → List FieldDescriptor → List FieldDescriptor
  | [], fields => fields
  | f :: rest, fields =>
    let tag := f.Tag.Get "db"
    if tag = "" ∨ tag = "-" then
      describeModel.loop rest fields
    else if tag = "id" ∨ tag = "created_at" ∨ tag = "updated_at" then
      describeModel.loop rest fields
    else
      describeModel.loop rest (fields ++ [{ Name := f.Name, DBName := tag, Typ := f.Typ }])

/-- describeModel reads the db tags and returns the fields to include in forms. -/
def describeModel (model : StructType) : List FieldDescriptor :=
  describeModel.loop model.Fields []

/-! ## Go runtime: values -/

/-- The payload of a Go value: a string, an integer, a boolean, or, for every other kind
(structs such as time.Time, arrays such as uuid.UUID, floats, ...), a number standing for
the value, 0 being the zero value of the type. -/
inductive Data
  | str (s : String)
  | int (n : Int)
  | bool (b : Bool)
  | other (payload : Nat)
  deriving DecidableEq, Repr

/-- A Go value together with its dynamic type. -/
structure Value where
  Typ : GoType
  Data : Data
  deriving DecidableEq, Repr

/-- The zero value of a type (`reflect.Zero`). -/
def Zero (t : GoType) : Value :=
  { Typ := t
    Data :=
      match t.Kind with
      | .String => .str ""
      | .Bool => .bool false
      | .Int | .Int8 | .Int16 | .Int32 | .Int64 => .int 0
      | .Uint | .Uint8 | .Uint16 | .Uint32 | .Uint64 | .Uintptr => .int 0
      | _ => .other 0 }

/-- A field of a struct value. -/
structure FieldValue where
  Name : String
  Val : Value
  deriving DecidableEq, Repr

/-- A struct value (a record instance): the name of its type and its fields in
declaration order. -/
structure Record where
  TypeName : String
  Fields : List FieldValue
  deriving DecidableEq, Repr

/-- The struct that `reflect.New(t)` points to: every field holds its zero value. -/
def New (t : StructType) : Record :=
  { TypeName := t.Name
    Fields := t.Fields.map (fun f => { Name := f.Name, Val := Zero f.Typ }) }

/-- `Value.FieldByName` on a struct value: the first field with the name; `none` is the
zero `reflect.Value` returned when there is no such field. -/
def Record.FieldByName (r : Record) (name : String) : Option FieldValue :=
  r.Fields.find? (fun f => f.Name = name)

/-- `Value.Kind` of the result of `FieldByName`; the zero Value has kind Invalid. -/
def fieldKind : Option FieldValue → Kind
  | none => .Invalid
  | some f => f.Val.Typ.Kind

/-- The parts of the Go standard library left uninterpreted: the Unicode tables beyond
ASCII and the text that package fmt prints for values that are not plain strings, integers
or booleans. -/
structure Lib where
  IsUpper : Char → Bool
  IsLetter : Char → Bool
  IsDigit : Char → Bool
  IsSpace : Char → Bool
  ToTitle : Char → Char
  Format : Value → String

/-- Go's `unicode.IsUpper`. -/
def IsUpper (lib : Lib) (r : Char) : Bool :=
  if r.toNat ≤ 0x7F then decide ('A'.toNat ≤ r.toNat ∧ r.toNat ≤ 'Z'.toNat)
  else lib.IsUpper r

/-- Whether a field name is exported: its first rune is upper case. -/
def IsExported (lib : Lib) (name : String) : Bool :=
  match name.data with
  | [] => false
  | r :: _ => IsUpper lib r

/-- `Value.Interface` on the result of `FieldByName`: panics on the zero Value and on a
value obtained from an unexported field. -/
def Interface (lib : Lib) : Option FieldValue → Except String Value
  | none => .error "reflect: call of reflect.Value.Interface on zero Value"
  | some f =>
    if IsExported lib f.Name then .ok f.Val
    else .error "reflect.Value.Interface: cannot return value obtained from unexported field or method"

/-- Replaces the payload of the first field with the given name. -/
def setData (name : String) (d : Data) : List FieldValue → List FieldValue
  | [] => []
  | f :: rest =>
    if f.Name = name then { f with Val := { f.Val with Data := d } } :: rest
    else f :: setData name d rest

/-- The method `Kind.String`: the name of a kind as the runtime prints it. -/
def kindName : Kind → String
  | .Invalid => "invalid" | .Bool => "bool" | .Int => "int" | .Int8 => "int8"
  | .Int16 => "int16" | .Int32 => "int32" | .Int64 => "int64" | .Uint => "uint"
  | .Uint8 => "uint8" | .Uint16 => "uint16" | .Uint32 => "uint32" | .Uint64 => "uint64"
  | .Uintptr => "uintptr" | .Float32 => "float32" | .Float64 => "float64"
  | .Complex64 => "complex64" | .Complex128 => "complex128" | .Array => "array"
  | .Chan => "chan" | .Func => "func" | .Interface => "interface" | .Map => "map"
  | .Pointer => "ptr" | .Slice => "slice" | .String => "string" | .Struct => "struct"
  | .UnsafePointer => "unsafe.Pointer"

/-- The statement `r.FieldByName(name).SetString(x)` on an addressable struct value: panics
on the zero Value, on an unexported field and on a field whose kind is not String, the
message naming the kind; otherwise stores x in the field. -/
def Record.SetString (lib : Lib) (r : Record) (name x : String) : Except String Record :=
  match r.FieldByName name with
  | none => .error "reflect: call of reflect.Value.SetString on zero Value"
  | some f =>
    if ¬ IsExported lib f.Name then
      .error "reflect: reflect.Value.SetString using value obtained using unexported field"
    else if f.Val.Typ.Kind ≠ .String then
      .error ("reflect: call of reflect.Value.SetString on " ++ kindName f.Val.Typ.Kind ++ " Value")
    else .ok { r with Fields := setData name (.str x) r.Fields }

/-! ## Go standard library: strings.Title and fmt.Sprint -/

/-- The function isSeparator of package strings. -/
def isSeparator (lib : Lib) (r : Char) : Bool :=
  if r.toNat ≤ 0x7F then
    if '0'.toNat ≤ r.toNat ∧ r.toNat ≤ '9'.toNat then false
    else if 'a'.toNat ≤ r.toNat ∧ r.toNat ≤ 'z'.toNat then false
    else if 'A'.toNat ≤ r.toNat ∧ r.toNat ≤ 'Z'.toNat then false
    else if r = '_' then false
    else true
  else if lib.IsLetter r || lib.IsDigit r then false
  else lib.IsSpace r

/-- Go's `unicode.ToTitle`: title case is upper case for ASCII. -/
def ToTitle (lib : Lib) (r : Char) : Char :=
  if r.toNat ≤ 0x7F then
    if 'a'.toNat ≤ r.toNat ∧ r.toNat ≤ 'z'.toNat then Char.ofNat (r.toNat - ('a'.toNat - 'A'.toNat))
    else r
  else lib.ToTitle r

/-- The mapping closure of `strings.Title` run over the runes, `prev` being the rune seen
before. -/
def Title.map (lib : Lib) : Char → List Char → List Char
  | _, [] => []
  | prev, r :: rest =>
    if isSeparator lib prev then ToTitle lib r :: Title.map lib r rest
    else r :: Title.map lib r rest

/-- Go's `strings.Title`: the letters that begin words are mapped to their title case. -/
def Title (lib : Lib) (s : String) : String :=
  String.mk (Title.map lib ' ' s.data)

/-- Go's `fmt.Sprint` of one operand: a value whose type prints through a method, or that
is not a plain string, integer or boolean, prints as the library says; a string prints
as itself, an integer in decimal, a boolean as true or false. -/
def Sprint (lib : Lib) (v : Value) : String :=
  if v.Typ.Stringer then lib.Format v
  else
    match v.Data with
    | .str s => s
    | .int n => toString n
    | .bool b => if b then "true" else "false"
    | .other _ => lib.Format v

/-! ## The widget toolkit (tview) -/

/-- The closures that crudui hands to the toolkit, each represented by the variables it
captures. -/
inductive Callback
  /-- The closure that only calls `pages.SwitchToPage(name)`. -/
  | switchToPage (name : String)
  /-- The closure of the "New" menu entry and of the n key of the list page. -/
  | newForm (model : StructType) (fields : List FieldDescriptor) (resourceName : String)
  /-- The closure of the Save button. -/
  | save (model : StructType) (fields : List FieldDescriptor) (resourceName id : String)
  deriving DecidableEq, Repr

/-- A table cell: its text and whether it is excluded from selection. -/
structure TableCell where
  Text : String
  NotSelectable : Bool
  deriving DecidableEq, Repr

/-- The cell made by `tview.NewTableCell`. -/
def NewTableCell (text : String) : TableCell :=
  { Text := text, NotSelectable := false }

/-- The method `TableCell.SetSelectable`. -/
def TableCell.SetSelectable (c : TableCell) (selectable : Bool) : TableCell :=
  { c with NotSelectable := !selectable }

/-- The method `Table.SetCell` on the rows of cells: the rows are extended up to `row`, the
row is extended with empty cells up to `column`, then the cell is stored. -/
def SetCell (cells : List (List TableCell)) (row column : Nat) (cell : TableCell) :
    List (List TableCell) :=
  let cells :=
    if row ≥ cells.length then cells ++ List.replicate (row - cells.length + 1) [] else cells
  let r := cells.getD row []
  let r :=
    if column ≥ r.length then r ++ List.replicate (column - r.length + 1) (NewTableCell "")
    else r
  cells.set row (r.set column cell)

/-- A table widget as built by `buildListPage`: border, title and cells, and the variables
captured by its three handlers. -/
structure Table where
  Border : Bool
  Title : String
  cells : List (List TableCell)
  model : StructType
  fields : List FieldDescriptor
  resourceName : String
  deriving DecidableEq, Repr

/-- A text input of a form. -/
structure InputField where
  Label : String
  Text : String
  FieldWidth : Nat
  deriving DecidableEq, Repr

/-- A button of a form and the closure run when it is pressed. -/
structure Button where
  Label : String
  Selected : Callback
  deriving DecidableEq, Repr

/-- A form widget: its inputs, its buttons and its cancel closure. -/
structure Form where
  items : List InputField
  buttons : List Button
  cancel : Option Callback
  deriving DecidableEq, Repr

/-- The empty form made by `tview.NewForm`. -/
def NewForm : Form :=
  { items := [], buttons := [], cancel := none }

/-- The method `Form.AddInputField`. -/
def Form.AddInputField (form : Form) (label value : String) (fieldWidth : Nat) : Form :=
  { form with items := form.items ++ [{ Label := label, Text := value, FieldWidth := fieldWidth }] }

/-- The method `Form.AddButton`. -/
def Form.AddButton (form : Form) (label : String) (selected : Callback) : Form :=
  { form with buttons := form.buttons ++ [{ Label := label, Selected := selected }] }

/-- The method `Form.SetCancelFunc`. -/
def Form.SetCancelFunc (form : Form) (callback : Callback) : Form :=
  { form with cancel := some callback }

/-- The method `Form.GetFormItem`; `none` is the index-out-of-range panic. -/
def Form.GetFormItem (form : Form) (index : Nat) : Option InputField :=
  form.items.get? index

/-- The operator typing into the inputs: the i-th input receives the i-th text. -/
def typeTexts : List InputField → List String → List InputField
  | [], _ => []
  | item :: items, [] => item :: items
  | item :: items, t :: texts => { item with Text := t } :: typeTexts items texts

/-- The form after the operator has typed the given texts into its inputs. -/
def Form.typed (form : Form) (texts : List String) : Form :=
  { form with items := typeTexts form.items texts }

/-- What a page can hold. -/
inductive Primitive
  | table (t : Table)
  | form (f : Form)
  | other (name : String)
  deriving DecidableEq, Repr

/-- A page of the page stack. -/
structure Page where
  Name : String
  Item : Primitive
  Resize : Bool
  Visible : Bool
  deriving DecidableEq, Repr

/-- Removes the first page with the given name. -/
def removePage (name : String) : List Page → List Page
  | [] => []
  | p :: rest => if p.Name = name then rest else p :: removePage name rest

/-- The method `Pages.AddPage`: a page with the same name is overwritten, the new page goes
to the end of the list. -/
def AddPage (pages : List Page) (name : String) (item : Primitive) (resize visible : Bool) :
    List Page :=
  removePage name pages ++ [{ Name := name, Item := item, Resize := resize, Visible := visible }]

/-- The method `Pages.SwitchToPage`: the pages with the name become visible, all others
invisible. -/
def SwitchToPage (pages : List Page) (name : String) : List Page :=
  pages.map (fun p => { p with Visible := decide (p.Name = name) })

/-- The method `Pages.GetFrontPage`: the last visible page. -/
def GetFrontPage (pages : List Page) : Option Page :=
  (pages.filter (fun p => p.Visible)).getLast?

/-- The primitives held by the pages with the given name, in stack order. -/
def pageItems (pages : List Page) (name : String) : List Primitive :=
  (pages.filter (fun p => p.Name = name)).map (fun p => p.Item)

/-- An item of the menu list. -/
structure ListItem where
  MainText : String
  SecondaryText : String
  Shortcut : Char
  Selected : Option Callback
  deriving DecidableEq, Repr

/-- The method `List.AddItem`: the item is added at the end of the list. -/
def AddItem (menu : List ListItem) (mainText secondaryText : String) (shortcut : Char)
    (selected : Callback) : List ListItem :=
  menu ++ [{ MainText := mainText, SecondaryText := secondaryText, Shortcut := shortcut,
             Selected := some selected }]

/-! ## The store (pop) and the state of the world -/

/-- The store behind a `pop.Connection` whose state has type σ: what `All` loads for a model,
and how `Create` and `Update` change the state and whether they return an error. -/
structure Store (σ : Type) where
  All : StructType → σ → Except String (List Record)
  Create : Record → σ → σ × Option String
  Update : Record → σ → σ × Option String

/-- A call made to the store. -/
inductive StoreCall
  | All (model : String)
  | Create (inst : Record)
  | Update (inst : Record)
  deriving DecidableEq, Repr

/-- The mutable state that crudui acts on: the state of the store, the store calls made so
far, the page stack and the menu. -/
structure World (σ : Type) where
  db : σ
  calls : List StoreCall
  pages : List Page
  menu : List ListItem
  deriving DecidableEq

/-- How an action ends: normally, or with a panic; either way with the state reached. -/
inductive Outcome (σ : Type)
  | done (w : World σ)
  | panicked (msg : String) (w : World σ)
  deriving DecidableEq

/-- The state an action ended in. -/
def Outcome.world {σ : Type} : Outcome σ → World σ
  | .done w => w
  | .panicked _ w => w

/-! ## crudui: the form page -/

/-- The loop of `buildFormPage` that adds one input per field; the initial text is empty in
create and in edit mode alike (loading the record is left out in the source). -/
def buildFormPage.inputs (lib : Lib) : List FieldDescriptor → Form → Form
  | [], form => form
  | f :: rest, form =>
    let initial := ""
    buildFormPage.inputs lib rest (form.AddInputField (Title lib f.DBName) initial 20)

/-- buildFormPage generates a create/edit form. -/
def buildFormPage (lib : Lib) (model : StructType) (fields : List FieldDescriptor)
    (resourceName id : String) : Form :=
  let form := NewForm
  let form := buildFormPage.inputs lib fields form
  let form := form.AddButton "Save" (.save model fields resourceName id)
  let form := form.AddButton "Cancel" (.switchToPage resourceName)
  form.SetCancelFunc (.switchToPage resourceName)

/-- The loop of the Save closure that fills the new instance from the inputs: `i` is the
index of the next input, `inst` the instance so far. Only fields of kind String are
written; the text typed for a field of any other kind is not used. -/
def Save.populate (lib : Lib) (form : Form) :
    List FieldDescriptor → Nat → Record → Except String Record
  | [], _, inst => .ok inst
  | f :: rest, i, inst =>
    match form.GetFormItem i with
    | none => .error "runtime error: index out of range"
    | some input =>
      let raw := input.Text
      let field := inst.FieldByName f.Name
      match fieldKind field with
      | .String =>
        match inst.SetString lib f.Name raw with
        | .error e => .error e
        | .ok inst => Save.populate lib form rest (i + 1) inst
      | _ => Save.populate lib form rest (i + 1) inst

/-- The closure of the Save button, run on the current state of its form. The error that
Create or Update returns is dropped, and the page is switched after the store call. -/
def Save {σ : Type} (lib : Lib) (S : Store σ) (model : StructType)
    (fields : List FieldDescriptor) (resourceName id : String) (form : Form) (w : World σ) :
    Outcome σ :=
  match Save.populate lib form fields 0 (New model) with
  | .error e => .panicked e w
  | .ok inst =>
    if id = "" then
      let w := { w with db := (S.Create inst w.db).1, calls := w.calls ++ [StoreCall.Create inst] }
      .done { w with pages := SwitchToPage w.pages resourceName }
    else
      match inst.SetString lib "ID" id with
      | .error e => .panicked e w
      | .ok inst =>
        let w := { w with db := (S.Update inst w.db).1, calls := w.calls ++ [StoreCall.Update inst] }
        .done { w with pages := SwitchToPage w.pages resourceName }

/-- Runs a closure; `form` is the current state of the form that the closure captured,
which only Save reads. -/
def runCallback {σ : Type} (lib : Lib) (S : Store σ) (form : Form) :
    Callback → World σ → Outcome σ
  | .switchToPage name, w => .done { w with pages := SwitchToPage w.pages name }
  | .newForm model fields resourceName, w =>
    let form := buildFormPage lib model fields resourceName ""
    .done { w with pages := AddPage w.pages (resourceName ++ "_new") (.form form) true true }
  | .save model fields resourceName id, w => Save lib S model fields resourceName id form w

/-- The operator presses the button with the given label. -/
def Form.press {σ : Type} (lib : Lib) (S : Store σ) (form : Form) (label : String)
    (w : World σ) : Outcome σ :=
  match form.buttons.find? (fun b => b.Label = label) with
  | some b => runCallback lib S form b.Selected w
  | none => .done w

/-- The operator closes the form with the escape key: the cancel closure runs. -/
def Form.escape {σ : Type} (lib : Lib) (S : Store σ) (form : Form) (w : World σ) :
    Outcome σ :=
  match form.cancel with
  | some cb => runCallback lib S form cb w
  | none => .done w

/-- The operator selects the menu item at the given index. -/
def selectItem {σ : Type} (lib : Lib) (S : Store σ) (index : Nat) (w : World σ) :
    Outcome σ :=
  match w.menu.get? index with
  | some item =>
    match item.Selected with
    | some cb => runCallback lib S NewForm cb w
    | none => .done w
  | none => .done w

/-! ## crudui: the list page -/

/-- The header loop of `buildListPage`: field i goes to row 0, column i+1. -/
def buildListPage.header (lib : Lib) :
    List FieldDescriptor → Nat → List (List TableCell) → List (List TableCell)
  | [], _, cells => cells
  | f :: rest, i, cells =>
    buildListPage.header lib rest (i + 1)
      (SetCell cells 0 (i + 1) ((NewTableCell (Title lib f.DBName)).SetSelectable false))

/-- The inner loop of `buildListPage` over the fields of record number r. -/
def buildListPage.columns (lib : Lib) (rec : Record) (r : Nat) :
    List FieldDescriptor → Nat → List (List TableCell) → Except String (List (List TableCell))
  | [], _, cells => .ok cells
  | f :: rest, c, cells =>
    match Interface lib (rec.FieldByName f.Name) with
    | .error e => .error e
    | .ok fv =>
      buildListPage.columns lib rec r rest (c + 1)
        (SetCell cells (r + 1) (c + 1) (NewTableCell (Sprint lib fv)))

/-- The outer loop of `buildListPage` over the loaded records, r being the index of the
next record. -/
def buildListPage.rows (lib : Lib) (fields : List FieldDescriptor) :
    List Record → Nat → List (List TableCell) → Except String (List (List TableCell))
  | [], _, cells => .ok cells
  | rec :: rest, r, cells =>
    match Interface lib (rec.FieldByName "ID") with
    | .error e => .error e
    | .ok idField =>
      match buildListPage.columns lib rec r fields 0
          (SetCell cells (r + 1) 0 (NewTableCell (Sprint lib idField))) with
      | .error e => .error e
      | .ok cells => buildListPage.rows lib fields rest (r + 1) cells

/-- buildListPage creates a table view of all records; an error is a panic. -/
def buildListPage {σ : Type} (lib : Lib) (S : Store σ) (model : StructType)
    (fields : List FieldDescriptor) (resourceName : String) (db : σ) : Except String Table :=
  let cells := SetCell [] 0 0 ((NewTableCell "ID").SetSelectable false)
  let cells := buildListPage.header lib fields 0 cells
  match S.All model db with
  | .error err => .error ("failed to load " ++ resourceName ++ ": " ++ err)
  | .ok recs =>
    match buildListPage.rows lib fields recs 0 cells with
    | .error e => .error e
    | .ok cells =>
      .ok { Border := true, Title := Title lib resourceName, cells := cells,
            model := model, fields := fields, resourceName := resourceName }

/-- The method `Table.GetCell`: an empty cell when the position is outside the table. -/
def GetCell (cells : List (List TableCell)) (row column : Nat) : TableCell :=
  ((cells.getD row []).get? column).getD (NewTableCell "")

/-- The selected handler of the list page: opens the edit form of the row. -/
def Table.selected {σ : Type} (lib : Lib) (tbl : Table) (row : Nat) (w : World σ) :
    Outcome σ :=
  let id := (GetCell tbl.cells row 0).Text
  let ed := buildFormPage lib tbl.model tbl.fields tbl.resourceName id
  .done { w with
    pages := AddPage w.pages (tbl.resourceName ++ "_edit_" ++ id) (.form ed) true true }

/-- Runs the selected handler of the table on the page with the given name, as the toolkit
does when a row of a selectable table is chosen. `buildListPage` never makes its table
selectable, so in the running program no key reaches this handler (Enter goes to the done
handler, which acts on Escape only); the definition serves to put the edit form that the
handler builds on the page stack. -/
def selectRow {σ : Type} (lib : Lib) (name : String) (row : Nat) (w : World σ) : Outcome σ :=
  match w.pages.find? (fun p => p.Name = name) with
  | some p =>
    match p.Item with
    | .table tbl => Table.selected lib tbl row w
    | _ => .done w
  | none => .done w

/-- The text that the list page shows for the named field of a record. -/
def Record.text (lib : Lib) (rec : Record) (name : String) : String :=
  match rec.FieldByName name with
  | some f => Sprint lib f.Val
  | none => ""

/-- Whether a record has a field of the given name that reflection may read: the field
exists and the name is exported. -/
def Record.exports (lib : Lib) (rec : Record) (name : String) : Bool :=
  (rec.FieldByName name).isSome && IsExported lib name

/-! ## crudui: registration -/

/-- RegisterCRUD introspects the model struct and adds CRUD pages to the TUI. -/
def RegisterCRUD {σ : Type} (lib : Lib) (S : Store σ) (model : StructType)
    (resourceName : String) (w : World σ) : Outcome σ :=
  let desc := describeModel model
  let menu := AddItem w.menu (Title lib resourceName) ("Manage " ++ resourceName)
    (Char.ofNat 0) (.switchToPage resourceName)
  let menu := AddItem menu ("New " ++ Title lib resourceName) ("Create a new " ++ resourceName)
    'n' (.newForm model desc resourceName)
  let w := { w with menu := menu, calls := w.calls ++ [StoreCall.All model.Name] }
  match buildListPage lib S model desc resourceName w.db with
  | .error e => .panicked e w
  | .ok list => .done { w with pages := AddPage w.pages resourceName (.table list) true false }

/-! ## Concrete inputs -/

/-- Library tables that are empty beyond ASCII; every function above is exact on ASCII
text whatever the tables are. -/
def asciiLib : Lib :=
  { IsUpper := fun _ => false, IsLetter := fun _ => false, IsDigit := fun _ => false,
    IsSpace := fun _ => false, ToTitle := fun r => r, Format := fun _ => "" }

/-- The predeclared type string. -/
def stringType : GoType := { Name := "string", Kind := .String, Stringer := false }

/-- The predeclared type int. -/
def intType : GoType := { Name := "int", Kind := .Int, Stringer := false }

/-- The type uuid.UUID, an array of 16 bytes with a String method. -/
def uuidType : GoType := { Name := "uuid.UUID", Kind := .Array, Stringer := true }

/-- The type time.Time, a struct with a String method. -/
def timeType : GoType := { Name := "time.Time", Kind := .Struct, Stringer := true }

/-- The struct tag with a json and a db key of the same value, as written in models. -/
def jsonDb (name : String) : StructTag := { pairs := [("json", name), ("db", name)] }

/-- The model `models.Blog`. -/
def Blog : StructType :=
  { Name := "Blog"
    Fields :=
      [ { Name := "ID", Typ := uuidType, Tag := jsonDb "id" },
        { Name := "Title", Typ := stringType, Tag := jsonDb "title" },
        { Name := "Body", Typ := stringType, Tag := jsonDb "body" },
        { Name := "PublishedAt", Typ := timeType, Tag := jsonDb "published_at" },
        { Name := "CreatedAt", Typ := timeType, Tag := jsonDb "created_at" },
        { Name := "UpdatedAt", Typ := timeType, Tag := jsonDb "updated_at" } ] }

/-- A model with a string identifier, a string field and an integer field. -/
def Widget : StructType :=
  { Name := "Widget"
    Fields :=
      [ { Name := "ID", Typ := stringType, Tag := jsonDb "id" },
        { Name := "Name", Typ := stringType, Tag := jsonDb "name" },
        { Name := "Count", Typ := intType, Tag := jsonDb "count" } ] }

/-- A Widget value. -/
def widget (id name : String) (count : Int) : Record :=
  { TypeName := "Widget"
    Fields :=
      [ { Name := "ID", Val := { Typ := stringType, Data := .str id } },
        { Name := "Name", Val := { Typ := stringType, Data := .str name } },
        { Name := "Count", Val := { Typ := intType, Data := .int count } } ] }

/-- A Blog value; identifier and timestamps are given by the numbers that stand for them. -/
def blog (id : Nat) (title body : String) (published created updated : Nat) : Record :=
  { TypeName := "Blog"
    Fields :=
      [ { Name := "ID", Val := { Typ := uuidType, Data := .other id } },
        { Name := "Title", Val := { Typ := stringType, Data := .str title } },
        { Name := "Body", Val := { Typ := stringType, Data := .str body } },
        { Name := "PublishedAt", Val := { Typ := timeType, Data := .other published } },
        { Name := "CreatedAt", Val := { Typ := timeType, Data := .other created } },
        { Name := "UpdatedAt", Val := { Typ := timeType, Data := .other updated } } ] }

/-- The identifier that the store gives to a new record whose identifier is not a string:
a zero identifier becomes the number n, any other is kept. -/
def freshID (n : Nat) : Data → Data
  | .int 0 => .int n
  | .other 0 => .other n
  | d => d

/-- A store kept in memory, behaving like pop on one table: the state is the list of stored
records. Create refuses a record without an ID field and a record whose ID is an empty
string ("missing ID value") and stores nothing for them; otherwise it gives a fresh
identifier to a record whose ID is a zero value that is not a string, stamps the
CreatedAt and UpdatedAt fields the record has, and appends the record. Update replaces
the records with the same ID field. All returns the stored records. -/
def memStore : Store (List Record) :=
  { All := fun _ db => .ok db
    Create := fun inst db =>
      match inst.FieldByName "ID" with
      | none => (db, some "model does not have a field named ID")
      | some f =>
        if f.Val.Data = .str "" then (db, some "missing ID value")
        else
          (db ++ [{ inst with
              Fields := setData "UpdatedAt" (.other (db.length + 1))
                (setData "CreatedAt" (.other (db.length + 1))
                  (setData "ID" (freshID (db.length + 1) f.Val.Data) inst.Fields)) }], none)
    Update := fun inst db =>
      (db.map (fun r => if r.FieldByName "ID" = inst.FieldByName "ID" then inst else r), none) }

/-- A store that is unreachable for writes: Create and Update fail and change nothing. -/
def downStore : Store (List Record) :=
  { All := fun _ db => .ok db
    Create := fun _ db => (db, some "connection refused")
    Update := fun _ db => (db, some "connection refused") }

/-- The world at start-up in `tui.Tui` before any registration, over a given store state:
the menu, home and settings pages, the menu being visible. -/
def startWorld (db : List Record) : World (List Record) :=
  { db := db
    calls := []
    pages :=
      [ { Name := "menu", Item := .other "menu", Resize := true, Visible := true },
        { Name := "home", Item := .other "home", Resize := true, Visible := false },
        { Name := "settings", Item := .other "settings", Resize := true, Visible := false } ]
    menu :=
      [ { MainText := "Home", SecondaryText := "Go to home screen", Shortcut := 'h',
          Selected := some (.switchToPage "home") },
        { MainText := "Settings", SecondaryText := "Configure options", Shortcut := 's',
          Selected := some (.switchToPage "settings") },
        { MainText := "Quit", SecondaryText := "Exit the app", Shortcut := 'q',
          Selected := none } ] }

/-! ## Theorems -/

theorem describeModel.loop_eq (fs : List StructField) (acc : List FieldDescriptor) :
    describeModel.loop fs acc =
      acc ++ (fs.filter (fun f =>
          decide (f.Tag.Get "db" ∉ ["", "-", "id", "created_at", "updated_at"]))).map
        (fun f => { Name := f.Name, DBName := f.Tag.Get "db", Typ := f.Typ }) := by
  induction fs generalizing acc with
  | nil => simp [describeModel.loop]
  | cons f rest ih =>
    simp only [describeModel.loop]
    by_cases h1 : f.Tag.Get "db" = "" ∨ f.Tag.Get "db" = "-"
    · rw [if_pos h1, ih, List.filter_cons_of_neg]
      rcases h1 with h | h <;> simp [h]
    · rw [if_neg h1]
      by_cases h2 : f.Tag.Get "db" = "id" ∨ f.Tag.Get "db" = "created_at"
          ∨ f.Tag.Get "db" = "updated_at"
      · rw [if_pos h2, ih, List.filter_cons_of_neg]
        rcases h2 with h | h | h <;> simp [h]
      · rw [if_neg h2, ih, List.filter_cons_of_pos]
        · simp
        · simp only [not_or] at h1 h2
          simp [h1.1, h1.2, h2.1, h2.2.1, h2.2.2]

/-- C1: for every record type, describeModel returns exactly the descriptors of the declared
fields whose db tag is none of the empty string, "-", "id", "created_at", "updated_at", in
declaration order, each carrying the field's name, db tag and type. -/
theorem describeModel_spec (model : StructType) :
    describeModel model =
      (model.Fields.filter (fun f =>
          decide (f.Tag.Get "db" ∉ ["", "-", "id", "created_at", "updated_at"]))).map
        (fun f => { Name := f.Name, DBName := f.Tag.Get "db", Typ := f.Typ }) := by
  simp [describeModel, describeModel.loop_eq]

/-! ### The form page: buttons and inputs -/

theorem buildFormPage.inputs_buttons (lib : Lib) (fields : List FieldDescriptor) (form : Form) :
    (buildFormPage.inputs lib fields form).buttons = form.buttons ∧
      (buildFormPage.inputs lib fields form).cancel = form.cancel := by
  induction fields generalizing form with
  | nil => exact ⟨rfl, rfl⟩
  | cons f rest ih =>
    simp only [buildFormPage.inputs]
    exact ih _

theorem buildFormPage_buttons (lib : Lib) (model : StructType) (fields : List FieldDescriptor)
    (resourceName id : String) (texts : List String) :
    ((buildFormPage lib model fields resourceName id).typed texts).buttons =
        [{ Label := "Save", Selected := .save model fields resourceName id },
         { Label := "Cancel", Selected := .switchToPage resourceName }] ∧
      ((buildFormPage lib model fields resourceName id).typed texts).cancel =
        some (.switchToPage resourceName) := by
  have h := (buildFormPage.inputs_buttons lib fields NewForm).1
  simp only [NewForm] at h
  simp [buildFormPage, Form.typed, Form.AddButton, Form.SetCancelFunc, h, NewForm]

theorem press_Save (σ : Type) (lib : Lib) (S : Store σ) (model : StructType)
    (fields : List FieldDescriptor) (resourceName id : String) (texts : List String)
    (w : World σ) :
    ((buildFormPage lib model fields resourceName id).typed texts).press lib S "Save" w =
      Save lib S model fields resourceName id
        ((buildFormPage lib model fields resourceName id).typed texts) w := by
  simp [Form.press, (buildFormPage_buttons lib model fields resourceName id texts).1,
    runCallback]

theorem GetFrontPage_SwitchToPage (pages : List Page) (name : String) :
    GetFrontPage (SwitchToPage pages name) =
      ((pages.filter (fun p => p.Name = name)).getLast?).map
        (fun p => { p with Visible := true }) := by
  unfold GetFrontPage SwitchToPage
  rw [List.filter_map, List.getLast?_map]
  have hf : ((fun p : Page => p.Visible) ∘ fun p : Page =>
      { p with Visible := decide (p.Name = name) }) = fun p => decide (p.Name = name) := by
    funext p; simp
  rw [hf]
  cases h : (List.filter (fun p : Page => decide (p.Name = name)) pages).getLast? with
  | none => rfl
  | some p =>
    have hp := List.mem_of_getLast?_eq_some h
    simp only [List.mem_filter, decide_eq_true_eq] at hp
    simp [hp.2]

/-- C3: for every form built by buildFormPage, in create or edit mode and whatever has been
typed, the Cancel button and the escape (cancel) callback end normally in the world they
started in, store state, store calls and menu untouched, with only the page stack switched
to the resource's list page; the front page afterwards is the page with that name. -/
theorem Cancel_only_switches_page (σ : Type) (lib : Lib) (S : Store σ) (model : StructType)
    (fields : List FieldDescriptor) (resourceName id : String) (texts : List String)
    (w : World σ) :
    ((buildFormPage lib model fields resourceName id).typed texts).press lib S "Cancel" w =
        .done { db := w.db, calls := w.calls, menu := w.menu,
                pages := SwitchToPage w.pages resourceName } ∧
      ((buildFormPage lib model fields resourceName id).typed texts).escape lib S w =
        .done { db := w.db, calls := w.calls, menu := w.menu,
                pages := SwitchToPage w.pages resourceName } ∧
      GetFrontPage (SwitchToPage w.pages resourceName) =
        ((w.pages.filter (fun p => p.Name = resourceName)).getLast?).map
          (fun p => { p with Visible := true }) := by
  refine ⟨?_, ?_, GetFrontPage_SwitchToPage _ _⟩
  · simp [Form.press, (buildFormPage_buttons lib model fields resourceName id texts).1,
      runCallback]
  · simp [Form.escape, (buildFormPage_buttons lib model fields resourceName id texts).2,
      runCallback]

/-! ### The Save closure: the instance keeps the shape of the model -/

theorem setData_shape (name : String) (d : Data) (fs : List FieldValue) :
    (setData name d fs).map (fun f => (f.Name, f.Val.Typ)) =
      fs.map (fun f => (f.Name, f.Val.Typ)) := by
  induction fs with
  | nil => rfl
  | cons f rest ih =>
    simp only [setData]
    split
    · simp
    · simp [ih]

theorem SetString_shape (lib : Lib) (r r' : Record) (name x : String)
    (h : r.SetString lib name x = .ok r') :
    r'.Fields.map (fun f => (f.Name, f.Val.Typ)) =
      r.Fields.map (fun f => (f.Name, f.Val.Typ)) := by
  unfold Record.SetString at h
  split at h
  · cases h
  · split at h
    · cases h
    · split at h
      · cases h
      · cases h
        exact setData_shape _ _ _

theorem populate_shape (lib : Lib) (form : Form) (fields : List FieldDescriptor) (i : Nat)
    (inst inst' : Record) (h : Save.populate lib form fields i inst = .ok inst') :
    inst'.Fields.map (fun f => (f.Name, f.Val.Typ)) =
      inst.Fields.map (fun f => (f.Name, f.Val.Typ)) := by
  induction fields generalizing i inst with
  | nil =>
    simp only [Save.populate] at h
    cases h
    rfl
  | cons f rest ih =>
    simp only [Save.populate] at h
    split at h
    · cases h
    · split at h
      · split at h
        · cases h
        · rename_i hs
          rw [ih _ _ h, SetString_shape lib _ _ _ _ hs]
      · exact ih _ _ h

theorem find_shape (name : String) (fs : List FieldValue) :
    (fs.find? (fun f => f.Name = name)).map (fun f => (f.Name, f.Val.Typ)) =
      (fs.map (fun f => (f.Name, f.Val.Typ))).find? (fun p => p.1 = name) := by
  induction fs with
  | nil => rfl
  | cons f rest ih =>
    by_cases hf : f.Name = name
    · simp [List.find?_cons, hf]
    · simp [List.find?_cons, hf, ih]

theorem New_shape (model : StructType) :
    (New model).Fields.map (fun f => (f.Name, f.Val.Typ)) =
      model.Fields.map (fun f => (f.Name, f.Typ)) := by
  simp [New, Zero, Function.comp_def]

theorem find_model_shape (name : String) (fs : List StructField) :
    (fs.find? (fun f => f.Name = name)).map (fun f => (f.Name, f.Typ)) =
      (fs.map (fun f => (f.Name, f.Typ))).find? (fun p => p.1 = name) := by
  induction fs with
  | nil => rfl
  | cons f rest ih =>
    by_cases hf : f.Name = name
    · simp [List.find?_cons, hf]
    · simp [List.find?_cons, hf, ih]

/-- After the populate loop the instance still has, under every name, a field of the name and
type that the model declares. -/
theorem populate_FieldByName (lib : Lib) (form : Form) (fields : List FieldDescriptor)
    (model : StructType) (inst : Record) (name : String)
    (h : Save.populate lib form fields 0 (New model) = .ok inst) :
    (inst.FieldByName name).map (fun f => (f.Name, f.Val.Typ)) =
      (model.Fields.find? (fun f => f.Name = name)).map (fun f => (f.Name, f.Typ)) := by
  unfold Record.FieldByName
  rw [find_shape, find_model_shape, populate_shape lib form fields 0 _ _ h, New_shape]

theorem IsExported_ID (lib : Lib) : IsExported lib "ID" = true := rfl

/-- The assignment of the id text to the ID field of a populated instance. -/
theorem SetString_ID (lib : Lib) (form : Form) (fields : List FieldDescriptor)
    (model : StructType) (inst : Record) (id : String)
    (h : Save.populate lib form fields 0 (New model) = .ok inst) :
    ((model.Fields.find? (fun f => f.Name = "ID")).map (fun f => f.Typ.Kind) = some Kind.String →
        inst.SetString lib "ID" id =
          .ok { inst with Fields := setData "ID" (.str id) inst.Fields }) ∧
      ((model.Fields.find? (fun f => f.Name = "ID")).map (fun f => f.Typ.Kind) ≠ some Kind.String →
        ∃ e, inst.SetString lib "ID" id = .error e) := by
  have hs := populate_FieldByName lib form fields model inst "ID" h
  unfold Record.SetString
  cases hi : inst.FieldByName "ID" with
  | none =>
    rw [hi] at hs
    cases hm : model.Fields.find? (fun f => f.Name = "ID") with
    | none => simp
    | some f => rw [hm] at hs; simp at hs
  | some fv =>
    rw [hi] at hs
    cases hm : model.Fields.find? (fun f => f.Name = "ID") with
    | none => rw [hm] at hs; simp at hs
    | some f =>
      rw [hm] at hs
      simp only [Option.map_some', Option.some.injEq, Prod.mk.injEq] at hs
      have hn : fv.Name = "ID" := by
        have := List.find?_some hm
        simp only [decide_eq_true_eq] at this
        rw [hs.1, this]
      simp only [hn, IsExported_ID, hs.2, Option.map_some', Option.some.injEq]
      by_cases hk : f.Typ.Kind = Kind.String
      · simp [hk]
      · simp [hk]

/-- C10: in edit mode (non-empty id) Save assigns the id text to the ID field of the
populated instance as a string before Update. When the model declares an ID field of kind
String the assignment succeeds, and Save makes the Update call with that instance and
switches the page. When the model's ID field has any other kind, or is missing, the
assignment fails and Save panics in the very world it started in: no Update call, no page
switch. -/
theorem Save_edit_needs_string_ID (σ : Type) (lib : Lib) (S : Store σ) (model : StructType)
    (fields : List FieldDescriptor) (resourceName id : String) (form : Form) (w : World σ)
    (hid : id ≠ "") :
    ((model.Fields.find? (fun f => f.Name = "ID")).map (fun f => f.Typ.Kind) = some Kind.String →
        ∀ inst, Save.populate lib form fields 0 (New model) = .ok inst →
          inst.SetString lib "ID" id =
              .ok { inst with Fields := setData "ID" (.str id) inst.Fields } ∧
            Save lib S model fields resourceName id form w =
              .done
                { db := (S.Update { inst with Fields := setData "ID" (.str id) inst.Fields }
                    w.db).1
                  calls := w.calls ++
                    [StoreCall.Update { inst with Fields := setData "ID" (.str id) inst.Fields }]
                  pages := SwitchToPage w.pages resourceName
                  menu := w.menu }) ∧
      ((model.Fields.find? (fun f => f.Name = "ID")).map (fun f => f.Typ.Kind) ≠ some Kind.String →
        (∃ msg, Save lib S model fields resourceName id form w = .panicked msg w) ∧
          ∀ inst, Save.populate lib form fields 0 (New model) = .ok inst →
            ∃ e, inst.SetString lib "ID" id = .error e ∧
              Save lib S model fields resourceName id form w = .panicked e w) := by
  constructor
  · intro hk inst hp
    have hset := (SetString_ID lib form fields model inst id hp).1 hk
    refine ⟨hset, ?_⟩
    simp only [Save, hp, if_neg hid, hset]
  · intro hk
    have key : ∀ inst, Save.populate lib form fields 0 (New model) = .ok inst →
        ∃ e, inst.SetString lib "ID" id = .error e ∧
          Save lib S model fields resourceName id form w = .panicked e w := by
      intro inst hp
      obtain ⟨e, he⟩ := (SetString_ID lib form fields model inst id hp).2 hk
      exact ⟨e, he, by simp only [Save, hp, if_neg hid, he]⟩
    refine ⟨?_, key⟩
    cases hp : Save.populate lib form fields 0 (New model) with
    | error e => exact ⟨e, by simp only [Save, hp]⟩
    | ok inst =>
      obtain ⟨e, _, hS⟩ := key inst hp
      exact ⟨e, hS⟩

/-- C10 at models.Blog, whose ID is a uuid.UUID: Save of the edit form for id "7" panics
without touching the world. -/
theorem Save_edit_needs_string_ID_witness :
    "7" ≠ "" ∧
      ∃ msg, Save asciiLib memStore Blog (describeModel Blog) "blogs" "7"
          ((buildFormPage asciiLib Blog (describeModel Blog) "blogs" "7").typed
            ["Hello", "World", "2024-01-01"]) (startWorld []) =
        .panicked msg (startWorld []) :=
  ⟨by decide,
    ((Save_edit_needs_string_ID (List Record) asciiLib memStore Blog (describeModel Blog)
      "blogs" "7" ((buildFormPage asciiLib Blog (describeModel Blog) "blogs" "7").typed
        ["Hello", "World", "2024-01-01"]) (startWorld []) (by decide)).2 (by decide)).1⟩

/-! ### The Save closure evaluated on concrete forms -/

/-- C2 at the widgets scenario: the list shows widget "7", the operator opens its edit form
(which becomes the front page), leaves "bolt" as name and types "abc" as count, and presses
Save. Save ends normally, the Update call is made with Count left at zero, and the
front page is the list page, not the form. -/
theorem Save_malformed_count_reaches_Update :
    (GetFrontPage (selectRow asciiLib "widgets" 1
        (RegisterCRUD asciiLib memStore Widget "widgets"
          (startWorld [widget "7" "bolt" 12])).world).world.pages).map
        (fun p => (p.Name, p.Item)) =
      some ("widgets_edit_7",
        Primitive.form (buildFormPage asciiLib Widget (describeModel Widget) "widgets" "7")) ∧
    ((buildFormPage asciiLib Widget (describeModel Widget) "widgets" "7").typed
        ["bolt", "abc"]).press asciiLib memStore "Save"
        (selectRow asciiLib "widgets" 1
          (RegisterCRUD asciiLib memStore Widget "widgets"
            (startWorld [widget "7" "bolt" 12])).world).world =
      .done
        { db := [widget "7" "bolt" 0]
          calls := [StoreCall.All "Widget", StoreCall.Update (widget "7" "bolt" 0)]
          pages := SwitchToPage (selectRow asciiLib "widgets" 1
            (RegisterCRUD asciiLib memStore Widget "widgets"
              (startWorld [widget "7" "bolt" 12])).world).world.pages "widgets"
          menu := (RegisterCRUD asciiLib memStore Widget "widgets"
            (startWorld [widget "7" "bolt" 12])).world.menu } ∧
    (GetFrontPage (SwitchToPage (selectRow asciiLib "widgets" 1
        (RegisterCRUD asciiLib memStore Widget "widgets"
          (startWorld [widget "7" "bolt" 12])).world).world.pages "widgets")).map
        (fun p => p.Name) = some "widgets" := by
  decide

/-- C4 at an integer field: the list page renders the count 12 of a widget as "12", and the
Save loop run on the texts "bolt" and "12" gives an instance whose Name is "bolt" but
whose Count is 0, not 12: the text of the integer field is never converted. -/
theorem Save_loses_rendered_int :
    (widget "7" "bolt" 12).text asciiLib "Count" = "12" ∧
    (widget "7" "bolt" 12).text asciiLib "Name" = "bolt" ∧
    Save.populate asciiLib
        ((buildFormPage asciiLib Widget (describeModel Widget) "widgets" "").typed
          ["bolt", "12"]) (describeModel Widget) 0 (New Widget) =
      .ok (widget "" "bolt" 0) ∧
    (widget "" "bolt" 0).FieldByName "Count" ≠ (widget "7" "bolt" 12).FieldByName "Count" := by
  refine ⟨by decide, by decide, rfl, by decide⟩

/-- C6 at a store whose Create fails: the operator opens the New form from the menu (it
becomes the front page), types a name and presses Save. Create returns an error, yet Save
ends normally with the list page as the front page. -/
theorem Save_switches_page_after_failed_Create :
    (GetFrontPage (selectItem asciiLib downStore 4
        (RegisterCRUD asciiLib downStore Widget "widgets" (startWorld [])).world).world.pages).map
        (fun p => (p.Name, p.Item)) =
      some ("widgets_new",
        Primitive.form (buildFormPage asciiLib Widget (describeModel Widget) "widgets" "")) ∧
    (downStore.Create (widget "" "bolt" 0) []).2 = some "connection refused" ∧
    ((buildFormPage asciiLib Widget (describeModel Widget) "widgets" "").typed
        ["bolt", "12"]).press asciiLib downStore "Save"
        (selectItem asciiLib downStore 4
          (RegisterCRUD asciiLib downStore Widget "widgets" (startWorld [])).world).world =
      .done
        { db := []
          calls := [StoreCall.All "Widget", StoreCall.Create (widget "" "bolt" 0)]
          pages := SwitchToPage (selectItem asciiLib downStore 4
            (RegisterCRUD asciiLib downStore Widget "widgets" (startWorld [])).world).world.pages
              "widgets"
          menu := (RegisterCRUD asciiLib downStore Widget "widgets" (startWorld [])).world.menu } ∧
    (GetFrontPage (SwitchToPage (selectItem asciiLib downStore 4
        (RegisterCRUD asciiLib downStore Widget "widgets" (startWorld [])).world).world.pages
          "widgets")).map (fun p => p.Name) = some "widgets" := by
  decide

/-- C7 at models.Blog in edit mode: every field of the edit form for id "7" is filled with
text that the Save loop accepts, yet pressing Save makes no store call at all: it panics at
the assignment of the id to the ID field, a uuid.UUID, in the world it started in. -/
theorem Save_edit_Blog_makes_no_call :
    Save.populate asciiLib
        ((buildFormPage asciiLib Blog (describeModel Blog) "blogs" "7").typed
          ["Hello", "World", "2024-01-01"]) (describeModel Blog) 0 (New Blog) =
      .ok { TypeName := "Blog"
            Fields :=
              [ { Name := "ID", Val := Zero uuidType },
                { Name := "Title", Val := { Typ := stringType, Data := .str "Hello" } },
                { Name := "Body", Val := { Typ := stringType, Data := .str "World" } },
                { Name := "PublishedAt", Val := Zero timeType },
                { Name := "CreatedAt", Val := Zero timeType },
                { Name := "UpdatedAt", Val := Zero timeType } ] } ∧
    ((buildFormPage asciiLib Blog (describeModel Blog) "blogs" "7").typed
        ["Hello", "World", "2024-01-01"]).press asciiLib memStore "Save"
        (RegisterCRUD asciiLib memStore Blog "blogs" (startWorld [])).world =
      .panicked "reflect: call of reflect.Value.SetString on array Value"
        (RegisterCRUD asciiLib memStore Blog "blogs" (startWorld [])).world ∧
    (RegisterCRUD asciiLib memStore Blog "blogs" (startWorld [])).world.calls =
      [StoreCall.All "Blog"] := by
  refine ⟨rfl, by decide, by decide⟩

/-! ### Registration: the menu and the page stack -/

theorem removePage_names (name : String) (pages : List Page)
    (hn : (pages.map (fun p => p.Name)).Nodup) :
    ∀ p ∈ removePage name pages, p.Name ≠ name := by
  induction pages with
  | nil => intro p hp; simp [removePage] at hp
  | cons q rest ih =>
    simp only [List.map_cons, List.nodup_cons] at hn
    intro p hp
    simp only [removePage] at hp
    split at hp
    · rename_i hq
      intro hpn
      exact hn.1 (List.mem_map.mpr ⟨p, hp, by rw [hpn, hq]⟩)
    · rename_i hq
      rcases List.mem_cons.mp hp with h | h
      · rw [h]; exact hq
      · exact ih hn.2 p h

theorem removePage_append_last (name : String) (X : List Page) (q : Page)
    (hX : ∀ p ∈ X, p.Name ≠ name) (hq : q.Name = name) :
    removePage name (X ++ [q]) = X := by
  induction X with
  | nil => simp [removePage, hq]
  | cons a rest ih =>
    have ha : a.Name ≠ name := hX a (List.mem_cons_self _ _)
    have ih' := ih (fun p hp => hX p (List.mem_cons_of_mem _ hp))
    show removePage name (a :: (rest ++ [q])) = a :: rest
    simp only [removePage, if_neg ha, ih']

theorem filter_append_last (name : String) (X : List Page) (q : Page)
    (hX : ∀ p ∈ X, p.Name ≠ name) (hq : q.Name = name) :
    (X ++ [q]).filter (fun p => p.Name = name) = [q] := by
  rw [List.filter_append]
  have h1 : X.filter (fun p => decide (p.Name = name)) = [] := by
    rw [List.filter_eq_nil_iff]
    intro p hp
    simpa using hX p hp
  simp [h1, hq]

theorem RegisterCRUD_done (σ : Type) (lib : Lib) (S : Store σ) (model : StructType)
    (resourceName : String) (w : World σ) (list : Table)
    (hb : buildListPage lib S model (describeModel model) resourceName w.db = .ok list) :
    RegisterCRUD lib S model resourceName w =
      .done
        { db := w.db
          calls := w.calls ++ [StoreCall.All model.Name]
          pages := AddPage w.pages resourceName (.table list) true false
          menu := w.menu ++
            [ { MainText := Title lib resourceName, SecondaryText := "Manage " ++ resourceName,
                Shortcut := Char.ofNat 0, Selected := some (.switchToPage resourceName) },
              { MainText := "New " ++ Title lib resourceName,
                SecondaryText := "Create a new " ++ resourceName, Shortcut := 'n',
                Selected := some (.newForm model (describeModel model) resourceName) } ] } := by
  simp only [RegisterCRUD, hb, AddItem, List.append_assoc, List.singleton_append]

/-- C5, the claim as stated fails: registering "widgets" twice at start-up leaves two
"Manage widgets" entries and two "Create a new widgets" entries in the menu, which differs
from the menu after one registration. -/
theorem RegisterCRUD_twice_duplicates_menu :
    ((RegisterCRUD asciiLib memStore Widget "widgets"
        (RegisterCRUD asciiLib memStore Widget "widgets" (startWorld [])).world).world.menu.filter
      (fun item => item.SecondaryText = "Manage widgets")).length = 2 ∧
    ((RegisterCRUD asciiLib memStore Widget "widgets"
        (RegisterCRUD asciiLib memStore Widget "widgets" (startWorld [])).world).world.menu.filter
      (fun item => item.SecondaryText = "Create a new widgets")).length = 2 ∧
    (RegisterCRUD asciiLib memStore Widget "widgets"
        (RegisterCRUD asciiLib memStore Widget "widgets" (startWorld [])).world).world.menu ≠
      (RegisterCRUD asciiLib memStore Widget "widgets" (startWorld [])).world.menu := by
  decide

/-- C5 as amended: on a page stack without two pages of one name, when the list page can be
built, registering a resource twice ends normally both times; each call appends one
manage entry and one New entry to the menu, so the menu ends with two of each, while the
page stack after the second call equals the one after the first and holds exactly one page
named after the resource, the list page. -/
theorem RegisterCRUD_twice (σ : Type) (lib : Lib) (S : Store σ) (model : StructType)
    (resourceName : String) (w : World σ) (list : Table)
    (hn : (w.pages.map (fun p => p.Name)).Nodup)
    (hb : buildListPage lib S model (describeModel model) resourceName w.db = .ok list) :
    ∃ w1 w2, RegisterCRUD lib S model resourceName w = .done w1 ∧
      RegisterCRUD lib S model resourceName w1 = .done w2 ∧
      w1.menu = w.menu ++
        [ { MainText := Title lib resourceName, SecondaryText := "Manage " ++ resourceName,
            Shortcut := Char.ofNat 0, Selected := some (.switchToPage resourceName) },
          { MainText := "New " ++ Title lib resourceName,
            SecondaryText := "Create a new " ++ resourceName, Shortcut := 'n',
            Selected := some (.newForm model (describeModel model) resourceName) } ] ∧
      w2.menu = w1.menu ++
        [ { MainText := Title lib resourceName, SecondaryText := "Manage " ++ resourceName,
            Shortcut := Char.ofNat 0, Selected := some (.switchToPage resourceName) },
          { MainText := "New " ++ Title lib resourceName,
            SecondaryText := "Create a new " ++ resourceName, Shortcut := 'n',
            Selected := some (.newForm model (describeModel model) resourceName) } ] ∧
      w2.pages = w1.pages ∧
      w2.pages.filter (fun p => p.Name = resourceName) =
        [{ Name := resourceName, Item := .table list, Resize := true, Visible := false }] := by
  have h1 := RegisterCRUD_done σ lib S model resourceName w list hb
  refine ⟨_, _, h1, RegisterCRUD_done σ lib S model resourceName _ list hb, rfl, rfl, ?_, ?_⟩
  · simp only [AddPage]
    rw [removePage_append_last resourceName _ _ (removePage_names resourceName w.pages hn) rfl]
  · simp only [AddPage]
    rw [removePage_append_last resourceName _ _ (removePage_names resourceName w.pages hn) rfl]
    exact filter_append_last resourceName _ _ (removePage_names resourceName w.pages hn) rfl

/-- C5 as amended, at the start-up world with the Widget model. -/
theorem RegisterCRUD_twice_witness :
    ((startWorld []).pages.map (fun p => p.Name)).Nodup ∧
    buildListPage asciiLib memStore Widget (describeModel Widget) "widgets" (startWorld []).db =
      .ok { Border := true, Title := "Widgets",
            cells := [[{ Text := "ID", NotSelectable := true },
                       { Text := "Name", NotSelectable := true },
                       { Text := "Count", NotSelectable := true }]],
            model := Widget, fields := describeModel Widget, resourceName := "widgets" } ∧
    ∃ w1 w2, RegisterCRUD asciiLib memStore Widget "widgets" (startWorld []) = .done w1 ∧
      RegisterCRUD asciiLib memStore Widget "widgets" w1 = .done w2 ∧
      w2.pages = w1.pages :=
  ⟨by decide, rfl,
    (RegisterCRUD_twice (List Record) asciiLib memStore Widget "widgets" (startWorld [])
      { Border := true, Title := "Widgets",
        cells := [[{ Text := "ID", NotSelectable := true },
                   { Text := "Name", NotSelectable := true },
                   { Text := "Count", NotSelectable := true }]],
        model := Widget, fields := describeModel Widget, resourceName := "widgets" }
      (by decide) rfl).imp
      (fun _ h => h.imp (fun _ h' => ⟨h'.1, h'.2.1, h'.2.2.2.2.1⟩))⟩

/-! ### The list page: the cells of the table -/

theorem SetCell_new_row (cells : List (List TableCell)) (c : TableCell) :
    SetCell cells cells.length 0 c = cells ++ [[c]] := by
  simp [SetCell, List.getD_eq_getElem?_getD, List.set_append]

theorem SetCell_extend_last (rows : List (List TableCell)) (row : List TableCell)
    (c : TableCell) :
    SetCell (rows ++ [row]) rows.length row.length c = rows ++ [row ++ [c]] := by
  simp [SetCell, List.getD_eq_getElem?_getD, List.set_append]

theorem buildListPage.header_eq (lib : Lib) (fields : List FieldDescriptor) (i : Nat)
    (row : List TableCell) (hr : row.length = i + 1) :
    buildListPage.header lib fields i [row] =
      [row ++ fields.map (fun f => (NewTableCell (Title lib f.DBName)).SetSelectable false)] := by
  induction fields generalizing i row with
  | nil => simp [buildListPage.header]
  | cons f rest ih =>
    simp only [buildListPage.header]
    have h := SetCell_extend_last [] row ((NewTableCell (Title lib f.DBName)).SetSelectable false)
    simp only [List.nil_append, List.length_nil, hr] at h
    rw [h, ih (i + 1) _ (by simp [hr])]
    simp

theorem Interface_exports (lib : Lib) (rec : Record) (name : String)
    (h : rec.exports lib name = true) :
    ∃ fv, rec.FieldByName name = some fv ∧ Interface lib (rec.FieldByName name) = .ok fv.Val := by
  unfold Record.exports at h
  cases hf : rec.FieldByName name with
  | none => simp [hf] at h
  | some fv =>
    have hn : fv.Name = name := by
      have := List.find?_some hf
      simpa using this
    simp only [hf, Option.isSome_some, Bool.true_and] at h
    exact ⟨fv, rfl, by simp [Interface, hn, h]⟩

theorem Interface_text (lib : Lib) (rec : Record) (name : String)
    (h : rec.exports lib name = true) :
    ∃ v, Interface lib (rec.FieldByName name) = .ok v ∧ Sprint lib v = rec.text lib name := by
  obtain ⟨fv, hf, hi⟩ := Interface_exports lib rec name h
  exact ⟨fv.Val, hi, by simp [Record.text, hf]⟩

theorem buildListPage.columns_eq (lib : Lib) (rec : Record) (r : Nat)
    (fields : List FieldDescriptor) (c : Nat) (rows : List (List TableCell))
    (row : List TableCell) (hrows : rows.length = r + 1) (hrow : row.length = c + 1)
    (hf : ∀ f ∈ fields, rec.exports lib f.Name = true) :
    buildListPage.columns lib rec r fields c (rows ++ [row]) =
      .ok (rows ++ [row ++ fields.map (fun f => NewTableCell (rec.text lib f.Name))]) := by
  induction fields generalizing c row with
  | nil => simp [buildListPage.columns]
  | cons f rest ih =>
    obtain ⟨v, hv, ht⟩ := Interface_text lib rec f.Name (hf f (List.mem_cons_self _ _))
    simp only [buildListPage.columns, hv]
    have h := SetCell_extend_last rows row (NewTableCell (Sprint lib v))
    rw [hrows, hrow] at h
    rw [h, ih (c + 1) _ (by simp [hrow]) (fun g hg => hf g (List.mem_cons_of_mem _ hg)), ht]
    simp

theorem buildListPage.rows_eq (lib : Lib) (fields : List FieldDescriptor) (recs : List Record)
    (r : Nat) (cells : List (List TableCell)) (hc : cells.length = r + 1)
    (h : ∀ rec ∈ recs, ∀ name ∈ "ID" :: fields.map (fun f => f.Name),
      rec.exports lib name = true) :
    buildListPage.rows lib fields recs r cells =
      .ok (cells ++ recs.map (fun rec =>
        NewTableCell (rec.text lib "ID") ::
          fields.map (fun f => NewTableCell (rec.text lib f.Name)))) := by
  induction recs generalizing r cells with
  | nil => simp [buildListPage.rows]
  | cons rec rest ih =>
    have hrec := h rec (List.mem_cons_self _ _)
    obtain ⟨v, hv, ht⟩ := Interface_text lib rec "ID" (hrec "ID" (List.mem_cons_self _ _))
    have hcols := buildListPage.columns_eq lib rec r fields 0 cells
      [NewTableCell (Sprint lib v)] hc rfl
      (fun f hf => hrec f.Name (List.mem_cons_of_mem _ (List.mem_map.mpr ⟨f, hf, rfl⟩)))
    have hnew := SetCell_new_row cells (NewTableCell (Sprint lib v))
    rw [hc] at hnew
    simp only [buildListPage.rows, hv, hnew, hcols]
    rw [ih (r + 1) _ (by simp [hc]) (fun rec' hr => h rec' (List.mem_cons_of_mem _ hr)), ht]
    simp

/-- C9, the claim as stated fails: for the descriptors of Widget, whose persisted names are
"name" and "count", and no fetched record, row 0 of the table reads "ID", "Name",
"Count": the persisted names pass through strings.Title. -/
theorem buildListPage_header_is_titled :
    (buildListPage asciiLib memStore Widget (describeModel Widget) "widgets" []).toOption.map
        (fun tbl => tbl.cells.map (fun row => row.map (fun c => c.Text))) =
      some [["ID", "Name", "Count"]] ∧
    (describeModel Widget).map (fun d => d.DBName) = ["name", "count"] ∧
    [["ID", "Name", "Count"]] ≠ [["ID", "name", "count"]] := by
  decide

/-- The table that buildListPage returns when the records can be read. -/
theorem buildListPage_eq (σ : Type) (lib : Lib) (S : Store σ) (model : StructType)
    (fields : List FieldDescriptor) (resourceName : String) (db : σ) (recs : List Record)
    (hall : S.All model db = .ok recs)
    (hrec : ∀ rec ∈ recs, ∀ name ∈ "ID" :: fields.map (fun f => f.Name),
      rec.exports lib name = true) :
    buildListPage lib S model fields resourceName db =
      .ok { Border := true, Title := Title lib resourceName,
            cells :=
              ((NewTableCell "ID").SetSelectable false ::
                  fields.map (fun f =>
                    (NewTableCell (Title lib f.DBName)).SetSelectable false)) ::
                recs.map (fun rec =>
                  NewTableCell (rec.text lib "ID") ::
                    fields.map (fun f => NewTableCell (rec.text lib f.Name))),
            model := model, fields := fields, resourceName := resourceName } := by
  have hh := buildListPage.header_eq lib fields 0 [(NewTableCell "ID").SetSelectable false] rfl
  have h0 : SetCell [] 0 0 ((NewTableCell "ID").SetSelectable false) =
      [[(NewTableCell "ID").SetSelectable false]] := SetCell_new_row [] _
  have hr := buildListPage.rows_eq lib fields recs 0
    [[(NewTableCell "ID").SetSelectable false] ++
      fields.map (fun f => (NewTableCell (Title lib f.DBName)).SetSelectable false)]
    rfl hrec
  simp only [buildListPage, hall, h0, hh, hr]
  rfl

/-- C9 as amended: when the store returns the records r_0..r_{n-1} and every record has an
exported field ID and an exported field for every descriptor, buildListPage returns a table
whose row 0 is the cell "ID" followed by strings.Title of each persisted name, all not
selectable, and whose row i+1 is the text of r_i's ID followed by the text of r_i's field
for each descriptor, in fetch order; the table has exactly n+1 rows, each of k+1 cells. -/
theorem buildListPage_cells (σ : Type) (lib : Lib) (S : Store σ) (model : StructType)
    (fields : List FieldDescriptor) (resourceName : String) (db : σ) (recs : List Record)
    (hall : S.All model db = .ok recs)
    (hrec : ∀ rec ∈ recs, ∀ name ∈ "ID" :: fields.map (fun f => f.Name),
      rec.exports lib name = true) :
    ∃ tbl, buildListPage lib S model fields resourceName db = .ok tbl ∧
      tbl.cells =
        ((NewTableCell "ID").SetSelectable false ::
            fields.map (fun f => (NewTableCell (Title lib f.DBName)).SetSelectable false)) ::
          recs.map (fun rec =>
            NewTableCell (rec.text lib "ID") ::
              fields.map (fun f => NewTableCell (rec.text lib f.Name))) ∧
      tbl.cells.length = recs.length + 1 ∧
      ∀ row ∈ tbl.cells, row.length = fields.length + 1 := by
  have hb := buildListPage_eq σ lib S model fields resourceName db recs hall hrec
  refine ⟨_, hb, rfl, by simp, ?_⟩
  intro row hrow
  simp only [List.mem_cons, List.mem_map] at hrow
  rcases hrow with h | ⟨rec, _, h⟩
  · simp [h]
  · simp [← h]

/-- C9 as amended, at the Widget model with two stored widgets. -/
theorem buildListPage_cells_witness :
    memStore.All Widget [widget "7" "bolt" 12, widget "8" "nut" 3] =
      .ok [widget "7" "bolt" 12, widget "8" "nut" 3] ∧
    (∀ rec ∈ [widget "7" "bolt" 12, widget "8" "nut" 3],
      ∀ name ∈ "ID" :: (describeModel Widget).map (fun f => f.Name),
        rec.exports asciiLib name = true) ∧
    ∃ tbl, buildListPage asciiLib memStore Widget (describeModel Widget) "widgets"
        [widget "7" "bolt" 12, widget "8" "nut" 3] = .ok tbl ∧
      tbl.cells.map (fun row => row.map (fun c => c.Text)) =
        [["ID", "Name", "Count"], ["7", "bolt", "12"], ["8", "nut", "3"]] :=
  ⟨rfl, by decide,
    (buildListPage_cells (List Record) asciiLib memStore Widget (describeModel Widget)
      "widgets" [widget "7" "bolt" 12, widget "8" "nut" 3]
      [widget "7" "bolt" 12, widget "8" "nut" 3] rfl (by decide)).imp
      (fun _ h => ⟨h.1, by rw [h.2.1]; decide⟩)⟩

/-! ### Re-entering the list page -/

theorem Save_done (σ : Type) (lib : Lib) (S : Store σ) (model : StructType)
    (fields : List FieldDescriptor) (resourceName id : String) (form : Form) (w w' : World σ)
    (h : Save lib S model fields resourceName id form w = .done w') :
    w'.pages = SwitchToPage w.pages resourceName ∧ w'.menu = w.menu ∧
      ∃ inst, (w'.calls = w.calls ++ [StoreCall.Create inst] ∧ w'.db = (S.Create inst w.db).1) ∨
        (w'.calls = w.calls ++ [StoreCall.Update inst] ∧ w'.db = (S.Update inst w.db).1) := by
  unfold Save at h
  split at h
  · cases h
  · split at h
    · cases h
      exact ⟨rfl, rfl, _, Or.inl ⟨rfl, rfl⟩⟩
    · split at h
      · cases h
      · cases h
        exact ⟨rfl, rfl, _, Or.inr ⟨rfl, rfl⟩⟩

theorem pageItems_SwitchToPage (pages : List Page) (name other : String) :
    pageItems (SwitchToPage pages other) name = pageItems pages name := by
  unfold pageItems SwitchToPage
  rw [List.filter_map, List.map_map]
  rfl

theorem filter_removePage_ne (pages : List Page) (name other : String) (h : other ≠ name) :
    (removePage other pages).filter (fun p => p.Name = name) =
      pages.filter (fun p => p.Name = name) := by
  induction pages with
  | nil => rfl
  | cons q rest ih =>
    simp only [removePage]
    split
    · rename_i hq
      have : ¬ q.Name = name := by rw [hq]; exact h
      simp [List.filter_cons, this]
    · simp [List.filter_cons, ih]

theorem pageItems_AddPage_ne (pages : List Page) (name other : String) (item : Primitive)
    (resize visible : Bool) (h : other ≠ name) :
    pageItems (AddPage pages other item resize visible) name = pageItems pages name := by
  unfold pageItems AddPage
  rw [List.filter_append, filter_removePage_ne pages name other h]
  simp [List.filter_cons, h]

theorem front_of_pageItems (pages : List Page) (name : String) (item : Primitive)
    (h : pageItems pages name = [item]) :
    (GetFrontPage (SwitchToPage pages name)).map (fun p => (p.Name, p.Item)) =
      some (name, item) := by
  rw [GetFrontPage_SwitchToPage]
  unfold pageItems at h
  cases hf : pages.filter (fun p => p.Name = name) with
  | nil => rw [hf] at h; simp at h
  | cons p rest =>
    rw [hf] at h
    simp only [List.map_cons, List.cons.injEq, List.map_eq_nil_iff] at h
    have hp : p ∈ pages.filter (fun p => p.Name = name) := by rw [hf]; exact List.mem_cons_self _ _
    simp only [List.mem_filter, decide_eq_true_eq] at hp
    simp [h.2, h.1, hp.2]

theorem append_ne_self (s t : String) (ht : 0 < t.length) : s ++ t ≠ s := by
  intro h
  have hl := congrArg String.length h
  rw [String.length_append] at hl
  omega

theorem new_page_ne (resourceName : String) : resourceName ++ "_new" ≠ resourceName :=
  append_ne_self resourceName "_new" (by decide)

theorem edit_page_ne (resourceName id : String) :
    resourceName ++ "_edit_" ++ id ≠ resourceName := by
  rw [String.append_assoc]
  apply append_ne_self
  rw [String.length_append]
  have : ("_edit_" : String).length = 6 := by decide
  omega

theorem buildListPage_resourceName (σ : Type) (lib : Lib) (S : Store σ) (model : StructType)
    (fields : List FieldDescriptor) (resourceName : String) (db : σ) (list : Table)
    (hb : buildListPage lib S model fields resourceName db = .ok list) :
    list.resourceName = resourceName := by
  unfold buildListPage at hb
  simp only at hb
  split at hb
  · cases hb
  · split at hb
    · cases hb
    · cases hb
      rfl

/-- C8, the claim as stated fails: "blogs" is registered with models.Blog over an empty
store, the operator opens the New form from the menu, types a title, a body and a date and
presses Save, which succeeds: the store now holds one blog, so that a table built from
the store at that moment has two rows whatever the library prints for its values. Yet
the list page that Save switches to, and that the menu's resource entry switches to
afterwards, shows the table built at registration: the header row alone. -/
theorem list_page_is_stale_after_Save :
    (((buildFormPage asciiLib Blog (describeModel Blog) "blogs" "").typed
        ["Hello", "World", "2024-01-01"]).press asciiLib memStore "Save"
        (selectItem asciiLib memStore 4
          (RegisterCRUD asciiLib memStore Blog "blogs" (startWorld [])).world).world).world.db =
      [blog 1 "Hello" "World" 0 1 1] ∧
    memStore.All Blog [blog 1 "Hello" "World" 0 1 1] = .ok [blog 1 "Hello" "World" 0 1 1] ∧
    (∀ lib : Lib, ∃ tbl,
      buildListPage lib memStore Blog (describeModel Blog) "blogs"
          [blog 1 "Hello" "World" 0 1 1] = .ok tbl ∧
        tbl.cells.length = 2) ∧
    (GetFrontPage
        (((buildFormPage asciiLib Blog (describeModel Blog) "blogs" "").typed
          ["Hello", "World", "2024-01-01"]).press asciiLib memStore "Save"
          (selectItem asciiLib memStore 4
            (RegisterCRUD asciiLib memStore Blog "blogs"
              (startWorld [])).world).world).world.pages).map
        (fun p => (p.Name, p.Item)) =
      some ("blogs", Primitive.table
        { Border := true, Title := "Blogs",
          cells := [[{ Text := "ID", NotSelectable := true },
                     { Text := "Title", NotSelectable := true },
                     { Text := "Body", NotSelectable := true },
                     { Text := "Published_at", NotSelectable := true }]],
          model := Blog, fields := describeModel Blog, resourceName := "blogs" }) ∧
    (GetFrontPage
        (selectItem asciiLib memStore 3
          (((buildFormPage asciiLib Blog (describeModel Blog) "blogs" "").typed
            ["Hello", "World", "2024-01-01"]).press asciiLib memStore "Save"
            (selectItem asciiLib memStore 4
              (RegisterCRUD asciiLib memStore Blog "blogs"
                (startWorld [])).world).world).world).world.pages).map
        (fun p => (p.Name, p.Item)) =
      some ("blogs", Primitive.table
        { Border := true, Title := "Blogs",
          cells := [[{ Text := "ID", NotSelectable := true },
                     { Text := "Title", NotSelectable := true },
                     { Text := "Body", NotSelectable := true },
                     { Text := "Published_at", NotSelectable := true }]],
          model := Blog, fields := describeModel Blog, resourceName := "blogs" }) := by
  refine ⟨by decide, rfl, ?_, by decide, by decide⟩
  intro lib
  have hrec : ∀ rec ∈ [blog 1 "Hello" "World" 0 1 1],
      ∀ name ∈ "ID" :: (describeModel Blog).map (fun f => f.Name),
        rec.exports lib name = true := by
    intro rec hr name hname
    have hd : "ID" :: (describeModel Blog).map (fun f => f.Name) =
        ["ID", "Title", "Body", "PublishedAt"] := by decide
    rw [hd] at hname
    simp only [List.mem_singleton] at hr
    subst hr
    simp only [List.mem_cons, List.mem_singleton, List.not_mem_nil, or_false] at hname
    rcases hname with h | h | h | h <;> subst h <;> rfl
  exact ⟨_, buildListPage_eq (List Record) lib memStore Blog (describeModel Blog) "blogs"
    [blog 1 "Hello" "World" 0 1 1] [blog 1 "Hello" "World" 0 1 1] rfl hrec, rfl⟩

/-- C8 as amended: on a page stack without two pages of one name, when the list page can be
built from the store state at registration, RegisterCRUD ends normally and the only page
named after the resource holds the table built then. From then on, in every world in which
the page of that name still holds that table, whatever the store holds by then: a Save of
a form of the resource that ends normally makes one Create or Update call and no other
store call and brings that same table to the front; the closure of the menu's resource
entry brings that same table to the front with no store call; and each of these, like the
opening of the resource's New form and of an edit form, leaves that table on the page. The
list page is never rebuilt: its rows are those of the records fetched at registration. -/
theorem list_page_not_rebuilt (σ : Type) (lib : Lib) (S : Store σ) (model : StructType)
    (resourceName : String) (w0 : World σ) (list : Table)
    (hn : (w0.pages.map (fun p => p.Name)).Nodup)
    (hb : buildListPage lib S model (describeModel model) resourceName w0.db = .ok list) :
    ∃ w1, RegisterCRUD lib S model resourceName w0 = .done w1 ∧
      pageItems w1.pages resourceName = [.table list] ∧
      ∀ w : World σ, pageItems w.pages resourceName = [.table list] →
        (∀ (id : String) (form : Form) (w' : World σ),
          Save lib S model (describeModel model) resourceName id form w = .done w' →
            (GetFrontPage w'.pages).map (fun p => (p.Name, p.Item)) =
                some (resourceName, .table list) ∧
              (∃ inst, w'.calls = w.calls ++ [StoreCall.Create inst] ∨
                w'.calls = w.calls ++ [StoreCall.Update inst]) ∧
              pageItems w'.pages resourceName = [.table list]) ∧
        (∃ w', runCallback lib S NewForm (.switchToPage resourceName) w = .done w' ∧
          (GetFrontPage w'.pages).map (fun p => (p.Name, p.Item)) =
            some (resourceName, .table list) ∧
          w'.calls = w.calls ∧ w'.db = w.db ∧
          pageItems w'.pages resourceName = [.table list]) ∧
        (∃ w', runCallback lib S NewForm
              (.newForm model (describeModel model) resourceName) w = .done w' ∧
          w'.calls = w.calls ∧ w'.db = w.db ∧
          pageItems w'.pages resourceName = [.table list]) ∧
        ∀ row : Nat, ∃ w', Table.selected lib list row w = .done w' ∧
          w'.calls = w.calls ∧ w'.db = w.db ∧
          pageItems w'.pages resourceName = [.table list] := by
  have h1 := RegisterCRUD_done σ lib S model resourceName w0 list hb
  have hf : pageItems (AddPage w0.pages resourceName (.table list) true false) resourceName =
      [.table list] := by
    unfold pageItems AddPage
    rw [filter_append_last resourceName _ _ (removePage_names resourceName w0.pages hn) rfl]
    rfl
  have hres := buildListPage_resourceName σ lib S model _ resourceName w0.db list hb
  refine ⟨_, h1, hf, ?_⟩
  intro w hw
  refine ⟨?_, ?_, ?_, ?_⟩
  · intro id form w' hS
    obtain ⟨hp, _, inst, hc⟩ := Save_done σ lib S model _ resourceName id form w w' hS
    refine ⟨?_, ⟨inst, ?_⟩, ?_⟩
    · rw [hp]
      exact front_of_pageItems _ _ _ hw
    · rcases hc with h | h
      · exact Or.inl h.1
      · exact Or.inr h.1
    · rw [hp, pageItems_SwitchToPage, hw]
  · exact ⟨_, rfl, front_of_pageItems _ _ _ hw, rfl, rfl,
      by rw [pageItems_SwitchToPage, hw]⟩
  · exact ⟨_, rfl, rfl, rfl,
      by rw [pageItems_AddPage_ne _ _ _ _ _ _ (new_page_ne resourceName), hw]⟩
  · intro row
    refine ⟨_, rfl, rfl, rfl, ?_⟩
    simp only [hres]
    rw [pageItems_AddPage_ne _ _ _ _ _ _ (edit_page_ne resourceName _), hw]

/-- C8 as amended, at models.Blog registered over an empty store: the operator opens the New
form from the menu, saves a blog, and then selects the menu's resource entry; both times
the front page is the table built at registration, which has the header row only. -/
theorem list_page_not_rebuilt_witness :
    ((startWorld []).pages.map (fun p => p.Name)).Nodup ∧
    buildListPage asciiLib memStore Blog (describeModel Blog) "blogs" (startWorld []).db =
      .ok { Border := true, Title := "Blogs",
            cells := [[{ Text := "ID", NotSelectable := true },
                       { Text := "Title", NotSelectable := true },
                       { Text := "Body", NotSelectable := true },
                       { Text := "Published_at", NotSelectable := true }]],
            model := Blog, fields := describeModel Blog, resourceName := "blogs" } ∧
    ∃ w3, ((buildFormPage asciiLib Blog (describeModel Blog) "blogs" "").typed
          ["Hello", "World", "2024-01-01"]).press asciiLib memStore "Save"
          (selectItem asciiLib memStore 4
            (RegisterCRUD asciiLib memStore Blog "blogs" (startWorld [])).world).world =
        .done w3 ∧
      w3.db = [blog 1 "Hello" "World" 0 1 1] ∧
      (GetFrontPage w3.pages).map (fun p => (p.Name, p.Item)) =
        some ("blogs", Primitive.table
          { Border := true, Title := "Blogs",
            cells := [[{ Text := "ID", NotSelectable := true },
                       { Text := "Title", NotSelectable := true },
                       { Text := "Body", NotSelectable := true },
                       { Text := "Published_at", NotSelectable := true }]],
            model := Blog, fields := describeModel Blog, resourceName := "blogs" }) ∧
      ∃ w4, selectItem asciiLib memStore 3 w3 = .done w4 ∧
        (GetFrontPage w4.pages).map (fun p => (p.Name, p.Item)) =
          some ("blogs", Primitive.table
            { Border := true, Title := "Blogs",
              cells := [[{ Text := "ID", NotSelectable := true },
                         { Text := "Title", NotSelectable := true },
                         { Text := "Body", NotSelectable := true },
                         { Text := "Published_at", NotSelectable := true }]],
              model := Blog, fields := describeModel Blog, resourceName := "blogs" }) := by
  have hN : ((startWorld []).pages.map (fun p => p.Name)).Nodup := by decide
  obtain ⟨w1, _, _, hall⟩ := list_page_not_rebuilt (List Record) asciiLib memStore Blog "blogs"
    (startWorld [])
    { Border := true, Title := "Blogs",
      cells := [[{ Text := "ID", NotSelectable := true },
                 { Text := "Title", NotSelectable := true },
                 { Text := "Body", NotSelectable := true },
                 { Text := "Published_at", NotSelectable := true }]],
      model := Blog, fields := describeModel Blog, resourceName := "blogs" } hN rfl
  have hS := press_Save (List Record) asciiLib memStore Blog (describeModel Blog) "blogs" ""
    ["Hello", "World", "2024-01-01"]
    (selectItem asciiLib memStore 4
      (RegisterCRUD asciiLib memStore Blog "blogs" (startWorld [])).world).world
  have hD : Save asciiLib memStore Blog (describeModel Blog) "blogs" ""
      ((buildFormPage asciiLib Blog (describeModel Blog) "blogs" "").typed
        ["Hello", "World", "2024-01-01"])
      (selectItem asciiLib memStore 4
        (RegisterCRUD asciiLib memStore Blog "blogs" (startWorld [])).world).world =
      .done (Save asciiLib memStore Blog (describeModel Blog) "blogs" ""
        ((buildFormPage asciiLib Blog (describeModel Blog) "blogs" "").typed
          ["Hello", "World", "2024-01-01"])
        (selectItem asciiLib memStore 4
          (RegisterCRUD asciiLib memStore Blog "blogs" (startWorld [])).world).world).world := by
    decide
  obtain ⟨hfront, _, hinv⟩ := (hall _ (by decide)).1 "" _ _ hD
  obtain ⟨w4, h4, hfront4, _⟩ := (hall _ hinv).2.1
  refine ⟨hN, rfl, _, hS.trans hD, by decide, hfront, w4, ?_, hfront4⟩
  rw [← h4]
  decide

end Crudmonkey
